import Mathlib

/-!
Verification of the procurement pipeline core of `procurement-agentv3.py`
(TransGlobal Procurement Automation Agent).

The Python string operations used by the source (`str.split` on a substring,
`str.strip`, the `in` substring test, `str.replace(",", "")`, `float(...)`)
are modelled over `List Char` below.  Numeric values are modelled as exact
rationals (`ℚ`); special floating-point spellings accepted by Python's
`float` (`inf`, `nan`, underscores between digits) are outside the model.
Python's `sorted` is documented to be stable and is modelled by a stable
comparison sort (`List.insertionSort` with the total preorder induced by the
sort key); every stable sort by the same key produces the same list, so this
model is exact.  pandas `sort_values` is modelled by the same deterministic
comparison sort, but its default kind documents no order for tied keys, so no
theorem below relies on the tie order of `analyze_vendor_data`.
-/

/-- The whitespace characters stripped by Python's `str.strip()`. -/
def pyWs (c : Char) : Bool :=
  c = ' ' || c = '\t' || c = '\n' || c = '\r' || c = '\x0b' || c = '\x0c'

/-- Python `str.strip()`: remove leading and trailing whitespace. -/
def pyStrip (l : List Char) : List Char :=
  ((l.dropWhile pyWs).reverse.dropWhile pyWs).reverse

/-- Index of the first occurrence of `sep` as a contiguous sublist, if any. -/
def findOcc (sep : List Char) : List Char → Option Nat
  | [] => if sep.isEmpty then some 0 else none
  | c :: cs =>
    if sep.isPrefixOf (c :: cs) then some 0
    else (findOcc sep cs).map (· + 1)

/-- Python's substring test `sep in s` (for a non-empty `sep`). -/
def pyContains (sep l : List Char) : Bool :=
  (findOcc sep l).isSome

/-- Fuelled worker for `pySplit`; `fuel ≥ l.length` always suffices because
each step removes at least one character (the separator is non-empty). -/
def pySplitAux (sep : List Char) : Nat → List Char → List (List Char)
  | 0, l => [l]
  | fuel + 1, l =>
    match findOcc sep l with
    | none => [l]
    | some i => l.take i :: pySplitAux sep fuel (l.drop (i + sep.length))

/-- Python `s.split(sep)` for a non-empty separator: split on each
non-overlapping occurrence, scanning left to right. -/
def pySplit (sep l : List Char) : List (List Char) :=
  if sep.isEmpty then [l] else pySplitAux sep l.length l

/-- Numeric value of a list of decimal digit characters. -/
def digitsVal (ds : List Char) : Nat :=
  ds.foldl (fun n c => 10 * n + (c.toNat - 48)) 0

/-- Python `float(s)` on the decimal forms `[±] digits [. digits] [e[±]digits]`
(also `.digits` / `digits.`), with surrounding whitespace allowed; `none`
models the `ValueError` raised on any other input.  The accepted string
`± I . F e ± E` denotes the exact rational `± (I·10^|F| + F) · 10^±E / 10^|F|`,
which is what this builds (via `mkRat`, keeping the definition computable by
kernel reduction). -/
def pyFloat (s : List Char) : Option ℚ :=
  let t := pyStrip s
  let signBody : ℤ × List Char :=
    match t with
    | '+' :: r => (1, r)
    | '-' :: r => (-1, r)
    | r => (1, r)
  let sign := signBody.1
  let t₁ := signBody.2
  let ip := t₁.takeWhile Char.isDigit
  let r₁ := t₁.dropWhile Char.isDigit
  let fracRest : List Char × List Char :=
    match r₁ with
    | '.' :: r => (r.takeWhile Char.isDigit, r.dropWhile Char.isDigit)
    | r => ([], r)
  let fp := fracRest.1
  let r₂ := fracRest.2
  if ip.isEmpty && fp.isEmpty then none
  else
    let num : ℤ := sign * (digitsVal ip * 10 ^ fp.length + digitsVal fp : ℕ)
    match r₂ with
    | [] => some (mkRat num (10 ^ fp.length))
    | e :: r =>
      if e = 'e' || e = 'E' then
        let esignBody : Bool × List Char :=
          match r with
          | '+' :: rr => (false, rr)
          | '-' :: rr => (true, rr)
          | rr => (false, rr)
        let ed := esignBody.2.takeWhile Char.isDigit
        let r₃ := esignBody.2.dropWhile Char.isDigit
        if ed.isEmpty || !r₃.isEmpty then none
        else if esignBody.1 then
          some (mkRat num (10 ^ (fp.length + digitsVal ed)))
        else
          some (mkRat (num * 10 ^ digitsVal ed) (10 ^ fp.length))
      else none

/-- The `business_to_technical_req` prompt template (source lines 433-451). -/
def businessToTechnicalReqTemplate : String := "
        You are an expert procurement automation agent for TransGlobal Industries.
        
        Use the following retrieved context to enhance your analysis:
        {context}
        
        Based on the business requirements provided by the user, convert them into detailed technical requirements.
        
        Business Requirements:
        {question}
        
        Your output must include:
        1. A comprehensive set of functional requirements (specific capabilities and features)
        2. Non-functional requirements (performance, security, scalability, etc.)
        3. Technical specifications with appropriate metrics where possible
        4. Constraints and dependencies that vendors should be aware of
        
        Format your response in markdown with clear sections. Be specific, measurable, and precise.
        "

/-- The `rfp_generation` prompt template (source lines 453-473). -/
def rfpGenerationTemplate : String := "
        You are an expert procurement automation agent for TransGlobal Industries.
        
        Use the following retrieved context to enhance your RFP document:
        {context}
        
        Based on the technical requirements provided by the user, generate a complete Request for Proposal (RFP) document.
        
        Technical Requirements:
        {question}
        
        Your RFP must include:
        1. Project overview and objectives
        2. Detailed technical specifications and requirements
        3. Expected deliverables and timeline
        4. Evaluation criteria and vendor qualifications
        5. Submission guidelines and deadlines
        6. Terms and conditions
        
        Format your response as a professional RFP document using markdown. Be comprehensive and avoid ambiguity.
        "

/-- The `vendor_matching` prompt template (source lines 475-493). -/
def vendorMatchingTemplate : String := "
        You are an expert procurement automation agent for TransGlobal Industries.
        
        Use the following retrieved context to enhance your vendor analysis:
        {context}
        
        Based on the technical requirements and historical vendor data provided, identify and rank suitable vendors.
        
        Requirements and Vendor Data:
        {question}
        
        Your analysis must include:
        1. Top 3-5 recommended vendors with rankings
        2. Justification for each selection based on historical performance
        3. Alignment between vendor capabilities and project requirements
        4. Potential risks and considerations for each recommended vendor
        
        Format your response in markdown with clear sections. Provide objective analysis without personal bias.
        "

/-- The `tender_email` prompt template (source lines 495-514). -/
def tenderEmailTemplate : String := "
        You are an expert procurement automation agent for TransGlobal Industries.
        
        Use the following retrieved context to enhance your email:
        {context}
        
        Based on the RFP document and vendor information provided, generate a professional email to accompany the tender document.
        
        RFP and Vendor Information:
        {question}
        
        Your email must:
        1. Be professionally formatted with proper salutation and closing
        2. Clearly introduce the procurement opportunity
        3. Provide key dates and submission instructions
        4. Include contact information for queries
        5. Maintain TransGlobal Industries\x27 professional tone and branding
        
        Write a complete, ready-to-send email that is clear, concise, and professional.
        "

/-- The `bid_evaluation` prompt template (source lines 516-534). -/
def bidEvaluationTemplate : String := "
        You are an expert procurement automation agent for TransGlobal Industries.
        
        Use the following retrieved context to enhance your bid evaluation:
        {context}
        
        Based on the bid information provided, evaluate and rank the vendor proposals.
        
        Bid Information:
        {question}
        
        Your evaluation must include:
        1. Comparative analysis of all bids received
        2. Scoring for each bid against key criteria (price, quality, timeline, capabilities)
        3. Identification of the top two options with detailed justification
        4. Strengths and weaknesses of each bid
        
        Format your response in markdown with clear sections and tables where appropriate. Provide objective analysis.
        "

/-- The `negotiation_strategy` prompt template (source lines 536-555). -/
def negotiationStrategyTemplate : String := "
        You are an expert procurement automation agent for TransGlobal Industries.
        
        Use the following retrieved context to enhance your negotiation strategy:
        {context}
        
        Based on the top two bids provided, develop a negotiation strategy including BATNA analysis.
        
        Bid Information:
        {question}
        
        Your strategy must include:
        1. BATNA determination for each negotiation
        2. Key negotiation points and desired outcomes
        3. Potential concessions and their value
        4. Recommended approaches and tactics
        5. Alternative options if negotiations fail
        
        Format your response in markdown with clear, actionable recommendations. Be strategic and thorough.
        "

/-- The `risk_contract` prompt template (source lines 557-576). -/
def riskContractTemplate : String := "
        You are an expert procurement automation agent for TransGlobal Industries.
        
        Use the following retrieved context to enhance your risk assessment and contract draft:
        {context}
        
        Based on the vendor and bid information provided, assess risks and draft key contract components.
        
        Vendor and Bid Information:
        {question}
        
        Your output must include:
        1. Comprehensive risk assessment identifying potential issues
        2. Risk mitigation strategies and contingency plans
        3. Key contract clauses to address identified risks
        4. Performance metrics and SLAs to include in the contract
        5. Dispute resolution mechanisms and termination conditions
        
        Format your response in markdown with clear sections. Be thorough and focus on protecting TransGlobal Industries\x27 interests.
        "

/-- The `templates` dict literal of `get_prompt_template` (source lines 432-577),
as an association list in the source's insertion order. -/
def templatesList : List (String × String) :=
  [("business_to_technical_req", businessToTechnicalReqTemplate),
   ("rfp_generation", rfpGenerationTemplate),
   ("vendor_matching", vendorMatchingTemplate),
   ("tender_email", tenderEmailTemplate),
   ("bid_evaluation", bidEvaluationTemplate),
   ("negotiation_strategy", negotiationStrategyTemplate),
   ("risk_contract", riskContractTemplate)]

/-- `get_prompt_template` (source lines 431-582): dict lookup with
`templates["business_to_technical_req"]` as the default for unknown keys.
(The `PromptTemplate` wrapper only records the two input variable names and
is dropped; the template body is what varies with the stage.) -/
def get_prompt_template (stage : String) : String :=
  (templatesList.lookup stage).getD businessToTechnicalReqTemplate

/-- The seven stage identifiers, in source order (sidebar list, lines 817-825,
matching the keys of the `templates` dict). -/
def stageIds : List String :=
  ["business_to_technical_req", "rfp_generation", "vendor_matching",
   "tender_email", "bid_evaluation", "negotiation_strategy", "risk_contract"]

/-- `st.session_state.progress` (initialised `{}` at source line 375): the
per-session mapping from stage id to the stage's produced output text. -/
def PipelineState : Type := String → Option String

/-- The empty `progress` dict. -/
def emptyProgress : PipelineState := fun _ => none

/-- `st.session_state.progress[stage] = output` (source line 1064). -/
def setStage (ps : PipelineState) (stage output : String) : PipelineState :=
  fun k => if k = stage then some output else ps k

/-- One response of the external generation collaborator (`qa_chain.run`):
either the returned markdown text, or the error message of the raised
transport/quota exception. -/
inductive CollabResult : Type where
  | ok (text : String)
  | fail (err : String)
deriving DecidableEq

/-- `process_procurement_stage` (source lines 585-599): build the stage's
prompt template and run the RetrievalQA chain on the input.  The
retriever+LLM pair is the external collaborator, modelled as a function from
the composed prompt template and the user input to one `CollabResult`. -/
def process_procurement_stage (stage input_data : String)
    (chain : String → String → CollabResult) : CollabResult :=
  chain (get_prompt_template stage) input_data

/-- The process-button handler (source lines 1054-1067), run against a queue
of prepared collaborator behaviours: the single call to
`process_procurement_stage` consumes the head of the queue; on success the
result is written to `progress[stage]`, on a raised exception the handler
aborts with no write.  Returns the new state, the unconsumed remainder of the
queue, and the stored output (if any). -/
def handleProcessButton (stage input : String)
    (queue : List (String → String → CollabResult)) (ps : PipelineState) :
    PipelineState × List (String → String → CollabResult) × Option String :=
  match queue with
  | [] => (ps, [], none)
  | chain :: rest =>
    match process_procurement_stage stage input chain with
    | CollabResult.fail _ => (ps, rest, none)
    | CollabResult.ok result => (setStage ps stage result, rest, some result)

/-- The f-string seeding `tender_email`'s input from the `rfp_generation` and
`vendor_matching` outputs (source lines 944-950), byte for byte. -/
def tenderEmailSeed (rfp vm : String) : String :=
  "\n            RFP Document:\n            " ++ rfp ++
  "\n            \n            Selected Vendors:\n            " ++ vm ++
  "\n            "

/-- The f-string seeding `risk_contract`'s input from the `bid_evaluation`
and `negotiation_strategy` outputs (source lines 1027-1033), byte for byte. -/
def riskContractSeed (be ns : String) : String :=
  "\n            Bid Information:\n            " ++ be ++
  "\n            \n            Negotiation Strategy:\n            " ++ ns ++
  "\n            "

/-- The `sample_bids` literal offered for the `bid_evaluation` stage
(source lines 967-994). -/
def sampleBids : String := "
            Bid 1: Tech Solutions Ltd.
            Technical Proposal:
            Processor: Intel Core i7 (11th Gen)
            RAM: 16GB DDR4
            Storage: 512GB SSD
            Financial Proposal:
            Unit Price: $1,200 per laptop
            Total Cost: $125,000
            
            Bid 2: Apex Computers
            Technical Proposal:
            Processor: AMD Ryzen 7 (5000 series)
            RAM: 16GB DDR4
            Storage: 1TB SSD
            Financial Proposal:
            Unit Price: $1,150 per laptop
            Total Cost: $119,000
            
            Bid 3: Digital Edge
            Technical Proposal:
            Processor: AMD Ryzen 7 (4000 series)
            RAM: 16GB DDR4
            Storage: 512GB SSD
            Financial Proposal:
            Unit Price: $1,100 per laptop
            Total Cost: $114,500
            "

/-- The initial value of the editable input area for the selected stage
(the `value=` arguments of the `st.text_area` dispatch, source lines
891-1045; `st.text_area` defaults to the empty string when no `value` is
passed).  `sampleInput` models `st.session_state.get('sample_input', ...)`
and `useSampleBids` the "Use Sample Bid Data" checkbox. -/
def seedInput (stage : String) (progress : PipelineState)
    (sampleInput : Option String) (useSampleBids : Bool) : String :=
  if stage = "business_to_technical_req" then sampleInput.getD ""
  else if stage = "rfp_generation" then
    match progress "business_to_technical_req" with
    | some prev => prev
    | none => ""
  else if stage = "vendor_matching" then
    match progress "rfp_generation" with
    | some prev => prev
    | none => ""
  else if stage = "tender_email" then
    match progress "vendor_matching", progress "rfp_generation" with
    | some vm, some rfp => tenderEmailSeed rfp vm
    | _, _ => ""
  else if stage = "bid_evaluation" then
    if useSampleBids then sampleBids else ""
  else if stage = "negotiation_strategy" then
    match progress "bid_evaluation" with
    | some prev => prev
    | none => ""
  else if stage = "risk_contract" then
    match progress "negotiation_strategy", progress "bid_evaluation" with
    | some ns, some be => riskContractSeed be ns
    | _, _ => ""
  else ""

/-- One record produced by `analyze_bids` for one bid chunk: the Python dict
with its optional `vendor`, `price` and `delivery_time` keys. -/
structure BidInfo : Type where
  raw_text : String
  vendor : Option String
  price : Option ℚ
  delivery_time : Option String
deriving DecidableEq, Repr

/-- The `"Total Cost:"` marker searched for in bid lines (source line 674). -/
def totalCostMarker : List Char := "Total Cost:".data

/-- The `"Lead Time:"` marker searched for in bid lines (source line 685). -/
def leadTimeMarker : List Char := "Lead Time:".data

/-- Vendor extraction (source lines 669-671): if the chunk's first line
contains `":"`, the vendor is the second `split(":")` field, stripped. -/
def extractVendor (firstLine : List Char) : Option String :=
  if pyContains [':'] firstLine then
    some (String.mk (pyStrip ((pySplit [':'] firstLine).getD 1 [])))
  else none

/-- Price extraction (source lines 673-682): find the first line containing
`"Total Cost:"`; take the second `split("$")` field of that stripped line,
delete the commas and parse it as a float, recording `0` when the `try`
block raises (missing `"$"` or a failed `float(...)`). -/
def extractPrice (lines : List (List Char)) : Option ℚ :=
  match lines.filter (fun line => pyContains totalCostMarker line) with
  | [] => none
  | pl :: _ =>
    match (pySplit ['$'] (pyStrip pl)).get? 1 with
    | none => some 0
    | some t =>
      match pyFloat (t.filter (fun c => !(c == ','))) with
      | none => some 0
      | some q => some q

/-- Delivery-time extraction (source lines 684-687): the first line
containing `"Lead Time:"`, stripped, if any. -/
def extractDelivery (lines : List (List Char)) : Option String :=
  match lines.filter (fun line => pyContains leadTimeMarker line) with
  | [] => none
  | dl :: _ => some (String.mk (pyStrip dl))

/-- The loop body of `analyze_bids` for one retained chunk
(source lines 667-689). -/
def parseBid (bid : List Char) : BidInfo :=
  let lines := pySplit ['\n'] bid
  { raw_text := "Bid" ++ String.mk bid,
    vendor := extractVendor (lines.headD []),
    price := extractPrice lines,
    delivery_time := extractDelivery lines }

/-- The unsorted `bids` list of `analyze_bids` (source lines 662-689):
split the blob on `"Bid"`, drop chunks that are empty after stripping,
parse each remaining chunk. -/
def parsedBids (bid_data : String) : List BidInfo :=
  ((pySplit "Bid".data bid_data.data).filter
      (fun c => !(pyStrip c).isEmpty)).map parseBid

/-- The sort key `x.get("price", float("inf"))` (source line 692): a missing
price behaves as `+∞`. -/
def bidKey (b : BidInfo) : WithTop ℚ :=
  match b.price with
  | none => ⊤
  | some p => (p : WithTop ℚ)

/-- The preorder on list elements induced by a sort key. -/
def keyLe {α β : Type} [LinearOrder β] (key : α → β) (a b : α) : Prop :=
  key a ≤ key b

instance {α β : Type} [LinearOrder β] (key : α → β) : DecidableRel (keyLe key) :=
  fun a b => inferInstanceAs (Decidable (key a ≤ key b))

instance {α β : Type} [LinearOrder β] (key : α → β) : IsTotal α (keyLe key) :=
  ⟨fun a b => le_total (key a) (key b)⟩

instance {α β : Type} [LinearOrder β] (key : α → β) : IsTrans α (keyLe key) :=
  ⟨fun _ _ _ => le_trans⟩

/-- `analyze_bids` (source lines 658-694): parse the bid blocks, then
`sorted(bids, key=lambda x: x.get("price", float("inf")))` — a stable sort
ascending on the price key, modelled by insertion sort (stability is proved
below). -/
def analyze_bids (bid_data : String) : List BidInfo :=
  List.insertionSort (keyLe bidKey) (parsedBids bid_data)

/-- One row of the historical vendor rating table (the three numeric rating
columns grouped and averaged by `analyze_vendor_data`; the unused
`Interaction_date` and `Comments` columns are dropped). -/
structure VendorRow : Type where
  vendor_name : String
  delivery_punctuality : ℚ
  quality_of_goods : ℚ
  contract_term_compliance : ℚ
deriving DecidableEq, Repr

/-- One row of the aggregated table returned by `analyze_vendor_data`. -/
structure VendorScore : Type where
  vendor_name : String
  delivery_punctuality : ℚ
  quality_of_goods : ℚ
  contract_term_compliance : ℚ
  overall_score : ℚ
deriving DecidableEq, Repr

/-- The rows of one `groupby('Vendor_name')` group. -/
def vendorGroup (rows : List VendorRow) (k : String) : List VendorRow :=
  rows.filter (fun r => r.vendor_name == k)

/-- Arithmetic mean of a list of rationals (pandas `'mean'` aggregation). -/
def listMean (l : List ℚ) : ℚ := l.sum / l.length

/-- The group keys of `df.groupby('Vendor_name')`: the distinct vendor
names, sorted ascending (pandas sorts group keys by default). -/
def groupKeys (rows : List VendorRow) : List String :=
  List.insertionSort (keyLe (id : String → String))
    ((rows.map VendorRow.vendor_name).dedup)

/-- The aggregated row for one vendor (source lines 607-618): the mean of
each rating column over the vendor's rows, and
`Overall_score = (dp + qg + cc) / 3`. -/
def scoreOf (rows : List VendorRow) (k : String) : VendorScore :=
  let g := vendorGroup rows k
  let dp := listMean (g.map VendorRow.delivery_punctuality)
  let qg := listMean (g.map VendorRow.quality_of_goods)
  let cc := listMean (g.map VendorRow.contract_term_compliance)
  { vendor_name := k, delivery_punctuality := dp, quality_of_goods := qg,
    contract_term_compliance := cc, overall_score := (dp + qg + cc) / 3 }

/-- The aggregated table before the final sort, one row per group key in
grouping order. -/
def scoreTable (rows : List VendorRow) : List VendorScore :=
  (groupKeys rows).map (scoreOf rows)

/-- The descending sort key of
`sort_values('Overall_score', ascending=False)`. -/
def overallKey (v : VendorScore) : ℚᵒᵈ := OrderDual.toDual v.overall_score

/-- `analyze_vendor_data` (source lines 602-623): group by vendor name,
average the three rating columns, add the overall score, and sort descending
by overall score.  The source's `sort_values` uses its default sort kind,
which documents no order for tied overall scores; the model picks one
deterministic comparison sort, and no theorem in this file depends on where
this sort places tied rows. -/
def analyze_vendor_data (rows : List VendorRow) : List VendorScore :=
  List.insertionSort (keyLe overallKey) (scoreTable rows)

/-- Inserting an element whose key equals `q` prepends it to the `key = q`
fibre: everything it is inserted after has a strictly smaller key. -/
theorem filter_orderedInsert_of_key_eq {α β : Type} [LinearOrder β] (key : α → β)
    (a : α) (q : β) (h : key a = q) :
    ∀ l : List α,
      (List.orderedInsert (keyLe key) a l).filter (fun x => decide (key x = q))
        = a :: l.filter (fun x => decide (key x = q))
  | [] => by simp [List.orderedInsert, h]
  | b :: t => by
    by_cases hab : keyLe key a b
    · simp only [List.orderedInsert, if_pos hab]
      simp [h]
    · have hb : ¬ key b = q := fun hbq => hab (le_of_eq (h.trans hbq.symm))
      simp only [List.orderedInsert, if_neg hab]
      simp [List.filter_cons, hb, filter_orderedInsert_of_key_eq key a q h t]

/-- Inserting an element whose key differs from `q` leaves the `key = q`
fibre unchanged. -/
theorem filter_orderedInsert_of_key_ne {α β : Type} [LinearOrder β] (key : α → β)
    (a : α) (q : β) (h : ¬ key a = q) :
    ∀ l : List α,
      (List.orderedInsert (keyLe key) a l).filter (fun x => decide (key x = q))
        = l.filter (fun x => decide (key x = q))
  | [] => by simp [List.orderedInsert, h]
  | b :: t => by
    by_cases hab : keyLe key a b
    · simp only [List.orderedInsert, if_pos hab]
      simp [List.filter_cons, h]
    · simp only [List.orderedInsert, if_neg hab]
      simp [List.filter_cons, filter_orderedInsert_of_key_ne key a q h t]

/-- Stability of the keyed insertion sort: each `key = q` fibre of the
output is exactly the corresponding fibre of the input, in order. -/
theorem filter_insertionSort_key {α β : Type} [LinearOrder β] (key : α → β)
    (q : β) :
    ∀ l : List α,
      (List.insertionSort (keyLe key) l).filter (fun x => decide (key x = q))
        = l.filter (fun x => decide (key x = q))
  | [] => rfl
  | a :: t => by
    by_cases h : key a = q
    · rw [List.insertionSort, filter_orderedInsert_of_key_eq key a q h _,
        filter_insertionSort_key key q t]
      simp [List.filter_cons, h]
    · rw [List.insertionSort, filter_orderedInsert_of_key_ne key a q h _,
        filter_insertionSort_key key q t]
      simp [List.filter_cons, h]

/-- A boolean prefix is no longer than the list it prefixes. -/
theorem isPrefixOf_length (s l : List Char) (h : s.isPrefixOf l = true) :
    s.length ≤ l.length := by
  have hp : s <+: l := by simpa using h
  exact hp.length_le

/-- `findOcc` on the empty list fails for a non-empty separator. -/
theorem findOcc_nil (sep : List Char) (hs : ¬ sep.isEmpty) : findOcc sep [] = none := by
  unfold findOcc
  rw [if_neg hs]

/-- A found occurrence of a non-empty separator fits inside the list. -/
theorem findOcc_bound : ∀ (sep l : List Char), ¬ sep.isEmpty → ∀ i,
    findOcc sep l = some i → i + sep.length ≤ l.length
  | sep, [], hs, i, h => by
    rw [findOcc_nil sep hs] at h
    exact absurd h (by simp)
  | sep, c :: cs, hs, i, h => by
    simp only [findOcc] at h
    by_cases hp : sep.isPrefixOf (c :: cs)
    · rw [if_pos hp] at h
      cases h
      simpa using isPrefixOf_length sep (c :: cs) hp
    · rw [if_neg hp] at h
      cases hfo : findOcc sep cs with
      | none => rw [hfo] at h; exact absurd h (by simp)
      | some j =>
        rw [hfo] at h
        simp at h
        have hb := findOcc_bound sep cs hs j hfo
        simp only [List.length_cons]
        omega

/-- A non-empty list of characters has positive length. -/
theorem length_pos_of_not_isEmpty (sep : List Char) (hs : ¬ sep.isEmpty) :
    1 ≤ sep.length := by
  cases sep with
  | nil => simp at hs
  | cons _ _ => exact Nat.succ_le_succ (Nat.zero_le _)

/-- The fuel of `pySplitAux` is irrelevant once it covers the list length. -/
theorem pySplitAux_congr (sep : List Char) (hs : ¬ sep.isEmpty) :
    ∀ (f₁ f₂ : Nat) (l : List Char), l.length ≤ f₁ → l.length ≤ f₂ →
      pySplitAux sep f₁ l = pySplitAux sep f₂ l := by
  intro f₁
  induction f₁ with
  | zero =>
    intro f₂ l h₁ _
    have hl : l = [] := List.eq_nil_of_length_eq_zero (Nat.le_zero.mp h₁)
    subst hl
    cases f₂ with
    | zero => rfl
    | succ b =>
      simp only [pySplitAux]
      rw [findOcc_nil sep hs]
  | succ a ih =>
    intro f₂ l h₁ h₂
    cases f₂ with
    | zero =>
      have hl : l = [] := List.eq_nil_of_length_eq_zero (Nat.le_zero.mp h₂)
      subst hl
      simp only [pySplitAux]
      rw [findOcc_nil sep hs]
    | succ b =>
      simp only [pySplitAux]
      cases hfo : findOcc sep l with
      | none => rfl
      | some i =>
        have hb := findOcc_bound sep l hs i hfo
        have hsep := length_pos_of_not_isEmpty sep hs
        have hd : (l.drop (i + sep.length)).length = l.length - (i + sep.length) :=
          List.length_drop _ _
        have hda : (l.drop (i + sep.length)).length ≤ a := by omega
        have hdb : (l.drop (i + sep.length)).length ≤ b := by omega
        show List.take i l :: pySplitAux sep a (List.drop (i + sep.length) l)
          = List.take i l :: pySplitAux sep b (List.drop (i + sep.length) l)
        rw [ih b _ hda hdb]

/-- The defining recurrence of `pySplit` for a non-empty separator. -/
theorem pySplit_eq (sep l : List Char) (hs : ¬ sep.isEmpty) :
    pySplit sep l =
      match findOcc sep l with
      | none => [l]
      | some i => l.take i :: pySplit sep (l.drop (i + sep.length)) := by
  have hR : ∀ m : List Char, pySplit sep m = pySplitAux sep m.length m := by
    intro m
    unfold pySplit
    rw [if_neg hs]
  rw [hR l]
  cases hl : l.length with
  | zero =>
    have hnil : l = [] := List.eq_nil_of_length_eq_zero hl
    subst hnil
    rw [findOcc_nil sep hs]
    rfl
  | succ k =>
    simp only [pySplitAux]
    cases hfo : findOcc sep l with
    | none => rfl
    | some i =>
      have hb := findOcc_bound sep l hs i hfo
      have hsep := length_pos_of_not_isEmpty sep hs
      have hd : (l.drop (i + sep.length)).length = l.length - (i + sep.length) :=
        List.length_drop _ _
      show List.take i l :: pySplitAux sep k (List.drop (i + sep.length) l)
        = List.take i l :: pySplit sep (List.drop (i + sep.length) l)
      rw [hR (l.drop (i + sep.length)),
        pySplitAux_congr sep hs k (l.drop (i + sep.length)).length _ (by omega) le_rfl]

/-- The first occurrence of `c` in `pre ++ c :: rest` with `c ∉ pre` is at
index `pre.length`. -/
theorem findOcc_singleton_append (c : Char) (pre rest : List Char) (h : c ∉ pre) :
    findOcc [c] (pre ++ c :: rest) = some pre.length := by
  induction pre with
  | nil => simp [findOcc, List.isPrefixOf]
  | cons p ps ih =>
    have hne : ¬ (c = p) := fun hcp => h (by simp [hcp])
    have ih' := ih (fun hc => h (List.mem_cons_of_mem _ hc))
    simp [findOcc, List.isPrefixOf, hne, ih']

/-- Taking the length of a clean prefix recovers it. -/
theorem take_length_append (c : Char) : ∀ pre rest : List Char,
    (pre ++ c :: rest).take pre.length = pre
  | [], _ => rfl
  | p :: ps, rest => by simp [take_length_append c ps rest]

/-- Dropping past a clean prefix and the separator leaves the remainder. -/
theorem drop_length_append (c : Char) : ∀ pre rest : List Char,
    (pre ++ c :: rest).drop (pre.length + 1) = rest
  | [], _ => rfl
  | p :: ps, rest => by simp [drop_length_append c ps rest]

/-- Splitting on a single character that heads the remainder after a clean
prefix peels off that prefix. -/
theorem pySplit_singleton_append (c : Char) (pre rest : List Char) (h : c ∉ pre) :
    pySplit [c] (pre ++ c :: rest) = pre :: pySplit [c] rest := by
  rw [pySplit_eq [c] _ (by simp), findOcc_singleton_append c pre rest h]
  simp [take_length_append, drop_length_append]

/-- Unfolding of the handler on a non-empty collaborator queue. -/
theorem handleProcessButton_cons (stage input : String)
    (chain : String → String → CollabResult)
    (rest : List (String → String → CollabResult)) (ps : PipelineState) :
    handleProcessButton stage input (chain :: rest) ps =
      match chain (get_prompt_template stage) input with
      | CollabResult.fail _ => (ps, rest, none)
      | CollabResult.ok result => (setStage ps stage result, rest, some result) := rfl

/-- C1: if the collaborator call made while processing a stage fails, the
attempt leaves `PipelineState` unchanged (no entry written or modified, so a
never-processed stage still has no entry), consumes exactly one collaborator
response (no retry), and stores no output. -/
theorem processButton_collaborator_failure (stage input err : String)
    (chain : String → String → CollabResult)
    (rest : List (String → String → CollabResult)) (ps : PipelineState)
    (hfail : chain (get_prompt_template stage) input = CollabResult.fail err) :
    handleProcessButton stage input (chain :: rest) ps = (ps, rest, none)
    ∧ (∀ s, (handleProcessButton stage input (chain :: rest) ps).1 s = ps s)
    ∧ (ps stage = none →
        (handleProcessButton stage input (chain :: rest) ps).1 stage = none) := by
  have h1 : handleProcessButton stage input (chain :: rest) ps = (ps, rest, none) := by
    rw [handleProcessButton_cons, hfail]
  exact ⟨h1, fun s => by rw [h1], fun h => by rw [h1]; exact h⟩

/-- Witness for C1 at a concrete failing collaborator and the empty state. -/
theorem processButton_collaborator_failure_witness :
    handleProcessButton "rfp_generation" "some technical requirements"
        [fun _ _ => CollabResult.fail "quota exceeded"] emptyProgress
      = (emptyProgress, [], none)
    ∧ emptyProgress "rfp_generation" = none :=
  ⟨(processButton_collaborator_failure "rfp_generation" "some technical requirements"
      "quota exceeded" (fun _ _ => CollabResult.fail "quota exceeded") [] emptyProgress
      rfl).1, rfl⟩

/-- C8: processing the same stage twice with the same input and a
deterministic collaborator stores the same output both times; the second
successful run overwrites the entry with an equal value, so the state after
the second run equals the state after the first. -/
theorem processStage_idempotent (stage input r : String)
    (chain : String → String → CollabResult) (ps : PipelineState)
    (hok : chain (get_prompt_template stage) input = CollabResult.ok r) :
    (handleProcessButton stage input
        (handleProcessButton stage input [chain, chain] ps).2.1
        (handleProcessButton stage input [chain, chain] ps).1).1
      = (handleProcessButton stage input [chain, chain] ps).1
    ∧ (handleProcessButton stage input [chain, chain] ps).1 stage = some r
    ∧ (handleProcessButton stage input
        (handleProcessButton stage input [chain, chain] ps).2.1
        (handleProcessButton stage input [chain, chain] ps).1).2.2
      = (handleProcessButton stage input [chain, chain] ps).2.2 := by
  have h1 : handleProcessButton stage input [chain, chain] ps
      = (setStage ps stage r, [chain], some r) := by
    rw [handleProcessButton_cons, hok]
  have hset : setStage (setStage ps stage r) stage r = setStage ps stage r := by
    funext k
    unfold setStage
    by_cases hk : k = stage <;> simp [hk]
  have h2 : handleProcessButton stage input [chain] (setStage ps stage r)
      = (setStage (setStage ps stage r) stage r, [], some r) := by
    rw [handleProcessButton_cons, hok]
  rw [h1]
  refine ⟨?_, ?_, ?_⟩
  · show (handleProcessButton stage input [chain] (setStage ps stage r)).1
      = setStage ps stage r
    rw [h2, hset]
  · unfold setStage
    simp
  · show (handleProcessButton stage input [chain] (setStage ps stage r)).2.2 = some r
    rw [h2]

/-- Witness for C8 at a concrete deterministic collaborator. -/
theorem processStage_idempotent_witness :
    ((handleProcessButton "bid_evaluation" "bids text"
        (handleProcessButton "bid_evaluation" "bids text"
          [fun _ _ => CollabResult.ok "evaluation", fun _ _ => CollabResult.ok "evaluation"]
          emptyProgress).2.1
        (handleProcessButton "bid_evaluation" "bids text"
          [fun _ _ => CollabResult.ok "evaluation", fun _ _ => CollabResult.ok "evaluation"]
          emptyProgress).1).1
      = (handleProcessButton "bid_evaluation" "bids text"
          [fun _ _ => CollabResult.ok "evaluation", fun _ _ => CollabResult.ok "evaluation"]
          emptyProgress).1)
    ∧ (handleProcessButton "bid_evaluation" "bids text"
          [fun _ _ => CollabResult.ok "evaluation", fun _ _ => CollabResult.ok "evaluation"]
          emptyProgress).1 "bid_evaluation" = some "evaluation" :=
  ⟨(processStage_idempotent "bid_evaluation" "bids text" "evaluation"
      (fun _ _ => CollabResult.ok "evaluation") emptyProgress rfl).1,
   (processStage_idempotent "bid_evaluation" "bids text" "evaluation"
      (fun _ _ => CollabResult.ok "evaluation") emptyProgress rfl).2.1⟩

/-- C7: `analyze_vendor_data` on an empty rating table (zero rows, the three
rating columns present in the schema) returns the empty result. -/
theorem analyze_vendor_data_empty : analyze_vendor_data [] = [] := rfl

/-- C2: for every stage with declared predecessor(s), when every declared
predecessor's entry exists in `PipelineState` the stage's editable input is
pre-seeded with exactly the declared concatenation of those stored outputs,
byte for byte (single-predecessor stages get the predecessor's output
verbatim; `tender_email` gets `tenderEmailSeed`, `risk_contract` gets
`riskContractSeed`); when any declared predecessor's entry is absent the
input starts empty. -/
theorem seedInput_predecessors (ps : PipelineState) (si : Option String) (ub : Bool) :
    (∀ prev, ps "business_to_technical_req" = some prev →
        seedInput "rfp_generation" ps si ub = prev)
  ∧ (ps "business_to_technical_req" = none → seedInput "rfp_generation" ps si ub = "")
  ∧ (∀ prev, ps "rfp_generation" = some prev → seedInput "vendor_matching" ps si ub = prev)
  ∧ (ps "rfp_generation" = none → seedInput "vendor_matching" ps si ub = "")
  ∧ (∀ prev, ps "bid_evaluation" = some prev →
        seedInput "negotiation_strategy" ps si ub = prev)
  ∧ (ps "bid_evaluation" = none → seedInput "negotiation_strategy" ps si ub = "")
  ∧ (∀ rfp vm, ps "rfp_generation" = some rfp → ps "vendor_matching" = some vm →
        seedInput "tender_email" ps si ub = tenderEmailSeed rfp vm)
  ∧ (ps "rfp_generation" = none ∨ ps "vendor_matching" = none →
        seedInput "tender_email" ps si ub = "")
  ∧ (∀ be ns, ps "bid_evaluation" = some be → ps "negotiation_strategy" = some ns →
        seedInput "risk_contract" ps si ub = riskContractSeed be ns)
  ∧ (ps "bid_evaluation" = none ∨ ps "negotiation_strategy" = none →
        seedInput "risk_contract" ps si ub = "") := by
  refine ⟨?_, ?_, ?_, ?_, ?_, ?_, ?_, ?_, ?_, ?_⟩
  · intro prev h
    simp [seedInput, h]
  · intro h
    simp [seedInput, h]
  · intro prev h
    simp [seedInput, h]
  · intro h
    simp [seedInput, h]
  · intro prev h
    simp [seedInput, h]
  · intro h
    simp [seedInput, h]
  · intro rfp vm h1 h2
    simp [seedInput, h1, h2]
  · intro h
    cases h1 : ps "rfp_generation" with
    | none =>
      cases h2 : ps "vendor_matching" with
      | none => simp [seedInput, h1, h2]
      | some vm => simp [seedInput, h1, h2]
    | some rfp =>
      cases h2 : ps "vendor_matching" with
      | none => simp [seedInput, h1, h2]
      | some vm =>
        rcases h with h | h
        · rw [h1] at h
          exact absurd h (by simp)
        · rw [h2] at h
          exact absurd h (by simp)
  · intro be ns h1 h2
    simp [seedInput, h1, h2]
  · intro h
    cases h1 : ps "bid_evaluation" with
    | none =>
      cases h2 : ps "negotiation_strategy" with
      | none => simp [seedInput, h1, h2]
      | some ns => simp [seedInput, h1, h2]
    | some be =>
      cases h2 : ps "negotiation_strategy" with
      | none => simp [seedInput, h1, h2]
      | some ns =>
        rcases h with h | h
        · rw [h1] at h
          exact absurd h (by simp)
        · rw [h2] at h
          exact absurd h (by simp)

/-- Witness for C2 at a concrete state with both `tender_email`
predecessors present. -/
theorem seedInput_predecessors_witness :
    seedInput "tender_email"
        (setStage (setStage emptyProgress "rfp_generation" "the rfp")
          "vendor_matching" "the vendors") none false
      = tenderEmailSeed "the rfp" "the vendors"
    ∧ seedInput "risk_contract" emptyProgress none false = "" :=
  ⟨(seedInput_predecessors
      (setStage (setStage emptyProgress "rfp_generation" "the rfp")
        "vendor_matching" "the vendors") none false).2.2.2.2.2.2.1
      "the rfp" "the vendors" (by decide) (by decide),
   (seedInput_predecessors emptyProgress none false).2.2.2.2.2.2.2.2.2
      (Or.inl rfl)⟩

/-- C9: template lookup is total — each of the seven fixed stage ids returns
that stage's template, and any other key silently returns the
`business_to_technical_req` template as the fallback default. -/
theorem get_prompt_template_total (s : String) :
    (s = "business_to_technical_req" →
        get_prompt_template s = businessToTechnicalReqTemplate)
  ∧ (s = "rfp_generation" → get_prompt_template s = rfpGenerationTemplate)
  ∧ (s = "vendor_matching" → get_prompt_template s = vendorMatchingTemplate)
  ∧ (s = "tender_email" → get_prompt_template s = tenderEmailTemplate)
  ∧ (s = "bid_evaluation" → get_prompt_template s = bidEvaluationTemplate)
  ∧ (s = "negotiation_strategy" → get_prompt_template s = negotiationStrategyTemplate)
  ∧ (s = "risk_contract" → get_prompt_template s = riskContractTemplate)
  ∧ (s ∉ stageIds → get_prompt_template s = businessToTechnicalReqTemplate) := by
  refine ⟨?_, ?_, ?_, ?_, ?_, ?_, ?_, ?_⟩
  · intro h; subst h; rfl
  · intro h; subst h; rfl
  · intro h; subst h; rfl
  · intro h; subst h; rfl
  · intro h; subst h; rfl
  · intro h; subst h; rfl
  · intro h; subst h; rfl
  · intro h
    simp only [stageIds, List.mem_cons, List.not_mem_nil, or_false, not_or] at h
    obtain ⟨h1, h2, h3, h4, h5, h6, h7⟩ := h
    have b1 := beq_eq_false_iff_ne.mpr h1
    have b2 := beq_eq_false_iff_ne.mpr h2
    have b3 := beq_eq_false_iff_ne.mpr h3
    have b4 := beq_eq_false_iff_ne.mpr h4
    have b5 := beq_eq_false_iff_ne.mpr h5
    have b6 := beq_eq_false_iff_ne.mpr h6
    have b7 := beq_eq_false_iff_ne.mpr h7
    simp [get_prompt_template, templatesList, List.lookup, b1, b2, b3, b4, b5, b6, b7]

/-- Witness for C9 at a known stage id and at an unknown key. -/
theorem get_prompt_template_total_witness :
    get_prompt_template "negotiation_strategy" = negotiationStrategyTemplate
    ∧ get_prompt_template "warehouse_audit" = businessToTechnicalReqTemplate :=
  ⟨(get_prompt_template_total "negotiation_strategy").2.2.2.2.2.1 rfl,
   (get_prompt_template_total "warehouse_audit").2.2.2.2.2.2.2 (by decide)⟩

/-- C3: `analyze_bids` returns exactly the parsed records, ordered ascending
by price with an absent price behaving as `+∞` (so it sorts last), and the
sort is stable: every fibre of records with the same ordering key keeps its
original relative order. -/
theorem analyze_bids_ordering (bd : String) :
    (analyze_bids bd).Perm (parsedBids bd)
  ∧ List.Sorted (fun x y => bidKey x ≤ bidKey y) (analyze_bids bd)
  ∧ (∀ b : BidInfo, b.price = none → bidKey b = ⊤)
  ∧ ∀ q : WithTop ℚ,
      (analyze_bids bd).filter (fun x => decide (bidKey x = q))
        = (parsedBids bd).filter (fun x => decide (bidKey x = q)) := by
  refine ⟨List.perm_insertionSort _ _, ?_, ?_, ?_⟩
  · exact (List.sorted_insertionSort (keyLe bidKey) (parsedBids bd)).imp fun h => h
  · intro b h
    simp [bidKey, h]
  · intro q
    exact filter_insertionSort_key bidKey q (parsedBids bd)

/-- Witness for C3: the absent-price key is `+∞`, and a concrete blob comes
out sorted. -/
theorem analyze_bids_ordering_witness :
    bidKey { raw_text := "Bid x", vendor := none, price := none,
             delivery_time := none } = ⊤
    ∧ List.Sorted (fun x y => bidKey x ≤ bidKey y)
        (analyze_bids "Bid 1: A\nTotal Cost: $2\n\nBid 2: B\nTotal Cost: $1") :=
  ⟨(analyze_bids_ordering "").2.2.1 _ rfl,
   (analyze_bids_ordering "Bid 1: A\nTotal Cost: $2\n\nBid 2: B\nTotal Cost: $1").2.1⟩

/-- C4: on the two-bid blob the parser yields exactly two records, ordered
Zeta($500) before Acme($1,000). -/
theorem analyze_bids_example :
    (analyze_bids "Bid 1: Acme\nTotal Cost: $1,000\n\nBid 2: Zeta\nTotal Cost: $500").map
        (fun b => (b.vendor, b.price))
      = [(some "Zeta", some 500), (some "Acme", some 1000)] := by
  decide

/-- Unfolding of `extractPrice` when a `"Total Cost:"` line is found. -/
theorem extractPrice_cons (lines : List (List Char)) (pl : List Char)
    (rest : List (List Char))
    (h : lines.filter (fun line => pyContains totalCostMarker line) = pl :: rest) :
    extractPrice lines =
      match (pySplit ['$'] (pyStrip pl)).get? 1 with
      | none => some 0
      | some t =>
        match pyFloat (t.filter (fun c => !(c == ','))) with
        | none => some 0
        | some q => some q := by
  unfold extractPrice
  rw [h]

/-- C5: for every retained bid chunk the parser is total (never raises): a
chunk with no `"Total Cost:"` line yields a record with the price absent,
and a chunk whose `"Total Cost:"` line fails numeric parsing (no `"$"`, or
non-numeric text after it) yields a record with price `0`. -/
theorem parseBid_price_fallbacks (chunk : List Char) :
    ((pySplit ['\n'] chunk).filter (fun line => pyContains totalCostMarker line) = [] →
        (parseBid chunk).price = none)
  ∧ ∀ pl rest,
      (pySplit ['\n'] chunk).filter (fun line => pyContains totalCostMarker line)
          = pl :: rest →
      ((pySplit ['$'] (pyStrip pl)).get? 1 = none → (parseBid chunk).price = some 0)
    ∧ ∀ t, (pySplit ['$'] (pyStrip pl)).get? 1 = some t →
        pyFloat (t.filter (fun c => !(c == ','))) = none →
        (parseBid chunk).price = some 0 := by
  have hpp : (parseBid chunk).price = extractPrice (pySplit ['\n'] chunk) := rfl
  refine ⟨?_, ?_⟩
  · intro h
    rw [hpp]
    unfold extractPrice
    rw [h]
  · intro pl rest h
    refine ⟨?_, ?_⟩
    · intro h2
      rw [hpp, extractPrice_cons _ pl rest h, h2]
    · intro t h2 h3
      rw [hpp, extractPrice_cons _ pl rest h, h2]
      show (match pyFloat (t.filter (fun c => !(c == ','))) with
        | none => some 0
        | some q => some q) = some 0
      rw [h3]

/-- Witness for C5: a chunk with no cost line, one whose cost line has no
`$`, and one with non-numeric text after the `$`. -/
theorem parseBid_price_fallbacks_witness :
    (parseBid (String.data " 1: NoPrice vendor\nno cost line here")).price = none
    ∧ (parseBid (String.data " 1: X\nTotal Cost: see attachment")).price = some 0
    ∧ (parseBid (String.data " 1: X\nTotal Cost: $to be discussed")).price = some 0 :=
  ⟨(parseBid_price_fallbacks (String.data " 1: NoPrice vendor\nno cost line here")).1
      (by decide),
   ((parseBid_price_fallbacks (String.data " 1: X\nTotal Cost: see attachment")).2
      (String.data "Total Cost: see attachment") [] (by decide)).1 (by decide),
   ((parseBid_price_fallbacks (String.data " 1: X\nTotal Cost: $to be discussed")).2
      (String.data "Total Cost: $to be discussed") [] (by decide)).2
      (String.data "to be discussed") (by decide) (by decide)⟩

/-- C10: for a retained chunk whose first line is `pre ++ ":" ++ mid ++ ":"
++ suf` with no colon in `pre` or `mid`, the vendor field is exactly `mid`
(the text strictly between the first and second colon), stripped — so any
text after the second colon is dropped. -/
theorem parseBid_vendor_between_colons (chunk pre mid suf : List Char)
    (hline : (pySplit ['\n'] chunk).headD [] = pre ++ ':' :: (mid ++ ':' :: suf))
    (hpre : ':' ∉ pre) (hmid : ':' ∉ mid) :
    (parseBid chunk).vendor = some (String.mk (pyStrip mid)) := by
  have hv : (parseBid chunk).vendor
      = extractVendor ((pySplit ['\n'] chunk).headD []) := rfl
  rw [hv, hline]
  unfold extractVendor
  have hcont : pyContains [':'] (pre ++ ':' :: (mid ++ ':' :: suf)) = true := by
    unfold pyContains
    rw [findOcc_singleton_append ':' pre _ hpre]
    rfl
  rw [if_pos hcont]
  have hsplit : pySplit [':'] (pre ++ ':' :: (mid ++ ':' :: suf))
      = pre :: mid :: pySplit [':'] suf := by
    rw [pySplit_singleton_append ':' pre _ hpre,
      pySplit_singleton_append ':' mid suf hmid]
  rw [hsplit]
  rfl

/-- Witness for C10: a first line with a second colon; the text after it is
dropped from the vendor field. -/
theorem parseBid_vendor_between_colons_witness :
    (parseBid (String.data " 1: Acme: preferred vendor\nTotal Cost: $5")).vendor
      = some "Acme" :=
  parseBid_vendor_between_colons
    (String.data " 1: Acme: preferred vendor\nTotal Cost: $5")
    (String.data " 1") (String.data " Acme") (String.data " preferred vendor")
    (by decide) (by decide) (by decide)
